import Mathlib

/-!
Verification of the FBL3N monthly-report data pipeline
(`src/app/engine/processor.py`, `src/app/engine/report.py`).

The Python code is shallowly embedded: pandas Series/DataFrame columns become
fields of per-row structures, tables become lists of rows, fallible steps
return `Except String`, SAP decimal amounts are modelled as rationals, and the
unsigned-integer casts of the source are made explicit with `% 2^w`.
-/

set_option maxRecDepth 10000

/-! ## Character and string helpers (embedding the pandas `.str` operations) -/

/-- Embeds `Series.str.replace(c, "", regex = False)`: drop every occurrence of `c`. -/
def removeAllChar (c : Char) (s : List Char) : List Char :=
  s.filter (fun d => d ≠ c)

/-- Embeds `Series.str.replace(a, b, regex = False)` for single characters. -/
def replaceChar (a b : Char) (s : List Char) : List Char :=
  s.map (fun d => if d = a then b else d)

/-- Numeric value of a list of decimal digit characters (most significant first). -/
def natOfDigits (cs : List Char) : Nat :=
  cs.foldl (fun acc c => acc * 10 + (c.toNat - 48)) 0

/-- Shape accepted by `pd.to_numeric` for an unsigned decimal literal:
only digits and at most one decimal point, with at least one digit. -/
def isDecimalBody (cs : List Char) : Bool :=
  cs.all (fun c => c.isDigit || c == '.') && decide (cs.count '.' ≤ 1)
    && cs.any (fun c => c.isDigit)

/-- Value of an unsigned decimal literal `intpart[.fracpart]`. -/
def parseDecimalCore (cs : List Char) : Option ℚ :=
  if isDecimalBody cs then
    let intPart := cs.takeWhile (fun c => c ≠ '.')
    let fracPart := (cs.dropWhile (fun c => c ≠ '.')).drop 1
    some ((natOfDigits intPart : ℚ) + (natOfDigits fracPart : ℚ) / ((10 : ℚ) ^ fracPart.length))
  else none

/-- Embeds `pd.to_numeric` on a trimmed decimal string: an optional leading
minus sign followed by an unsigned decimal literal; anything else fails. -/
def parseDecimal : List Char → Option ℚ
  | '-' :: rest => (parseDecimalCore rest).map (fun v => -v)
  | cs => parseDecimalCore cs

/-! ## `_parse_amounts` (processor.py lines 24-32) -/

/-- Embeds `_parse_amounts` applied to one Series element: remove all `.`,
replace `,` by `.`, and where the result ends with `-`, replace it by
`"-" + result.replace("-", "")` (note: the source removes every `-`,
not only the trailing one), then convert with `pd.to_numeric`. -/
def parse_amounts (s : String) : Option ℚ :=
  parseDecimal
    (if (replaceChar ',' '.' (removeAllChar '.' s.data)).getLast? = some '-' then
      '-' :: removeAllChar '-' (replaceChar ',' '.' (removeAllChar '.' s.data))
    else replaceChar ',' '.' (removeAllChar '.' s.data))

/-- Modelled from the spec wording, for refinement comparison with
`parse_amounts`: remove all `.`, replace `,` with `.`, then if the result
ends with `-`, strip that trailing `-`, parse, and negate. -/
def parse_amounts_spec (s : String) : Option ℚ :=
  if (replaceChar ',' '.' (removeAllChar '.' s.data)).getLast? = some '-' then
    (parseDecimal (replaceChar ',' '.' (removeAllChar '.' s.data)).dropLast).map (fun v => -v)
  else parseDecimal (replaceChar ',' '.' (removeAllChar '.' s.data))

/-! ## The identifier regex `\D+([1,4]\d{6})(?!\d)` (processor.py line 261)

The Python regex is embedded by its backtracking semantics: a match starting
at position `i` consumes one or more non-digits (greedy, so the longest
feasible run is preferred), then captures one character of the class
`[1,4]` - which contains the three characters `1`, `,` and `4` - followed by
exactly six digits, subject to a negative lookahead for a further digit.
`findall`/`x[0]` semantics mean only the leftmost match is relevant. -/

/-- Membership in the character class `[1,4]`, which is the set
`{'1', ',', '4'}` (the comma is a literal member of the class). -/
def inLeadClass (c : Char) : Bool :=
  c == '1' || c == ',' || c == '4'

/-- Does the captured group `[1,4]\d{6}(?!\d)` match at position `p`? -/
def groupMatchAt (s : List Char) (p : Nat) : Bool :=
  match s.drop p with
  | [] => false
  | c :: rest =>
    inLeadClass c && decide ((rest.take 6).length = 6) && (rest.take 6).all Char.isDigit
      && (match rest.drop 6 with
          | [] => true
          | d :: _ => !d.isDigit)

/-- Length of the maximal run of non-digits starting the list. -/
def nonDigitRunLen : List Char → Nat
  | [] => 0
  | c :: rest => if c.isDigit then 0 else nonDigitRunLen rest + 1

/-- Backtracking attempt of the whole regex at start position `i`: `\D+` takes
`L` characters, longest first, and the first `L` whose remainder matches the
group wins; the returned value is the group start position. -/
def matchStartingAt (s : List Char) (i : Nat) : Option Nat :=
  ((((List.range (nonDigitRunLen (s.drop i)))).reverse.map (fun j => j + 1)).find?
    (fun L => groupMatchAt s (i + L))).map (fun L => i + L)

/-- Embeds `Text.str.findall(r"\D+([1,4]\d{6})(?!\d)")` restricted to the first
match, which is the only one the source consumes via `x[0]`: leftmost start
position wins, and the captured group is returned. -/
def find_customer_ids (text : String) : Option (List Char) :=
  ((List.range text.data.length).findSome? (fun i => matchStartingAt text.data i)).map
    (fun p => (text.data.drop p).take 7)

/-- Embeds `np.uint64` applied to a captured string: only a pure digit string
converts; anything else (such as a group starting with a comma) raises. -/
def to_uint64 (cs : List Char) : Option Nat :=
  if !cs.isEmpty && cs.all Char.isDigit then some (natOfDigits cs % 18446744073709551616)
  else none

/-- The per-row body of processor.py lines 260-266: find the first regex
capture in the text and convert it with `np.uint64`; no capture leaves the
customer number absent, and a capture `np.uint64` cannot parse raises. -/
def extract_customer_number (text : String) : Except String (Option Nat) :=
  match find_customer_ids text with
  | none => .ok none
  | some g =>
    match to_uint64 g with
    | some n => .ok (some n)
    | none => .error "invalid literal for uint64"

/-! ## Line items (output of `convert_data`) and `compact_data` -/

/-- One converted FBL3N line item, with the columns and coercions of
`convert_data` (processor.py lines 194-230); `Text` is optional because the
export may leave it missing before `compact_data` fills it with `""`. -/
structure Row where
  Currency : String
  Company_Code : String
  GL_Account : Nat
  Year : Nat
  Period : Nat
  Document_Type : String
  Offsetting_Account : Nat
  Offsetting_Account_Type : String
  LC_Amount : ℚ
  Text : Option String
deriving DecidableEq

/-- A line item after `compact_data` added the `Customer_Number` column. -/
structure CRow extends Row where
  Customer_Number : Option Nat
deriving DecidableEq

/-- The cheque offsetting-account sentinel of processor.py line 270. -/
def cheque_sentinel : Nat := 48505240

/-- Embeds line 270 with Python operator precedence preserved:
`Offsetting_Account != 48505240 & Customer_Number.isna()` parses as
`Offsetting_Account != (48505240 & isna)`, and the bitwise conjunction of
the even constant with a boolean (0 or 1) is always 0. -/
def fallback_mask (c : CRow) : Bool :=
  decide (c.Offsetting_Account ≠ Nat.land cheque_sentinel c.Customer_Number.isNone.toNat)

/-- Embeds line 271: rows selected by the mask get the offsetting account as
their customer number. -/
def apply_fallback (c : CRow) : CRow :=
  if fallback_mask c then { c with Customer_Number := some c.Offsetting_Account } else c

/-- Embeds lines 274-275: `astype("uint32")` wherever a customer number exists. -/
def cast_uint32 (c : CRow) : CRow :=
  match c.Customer_Number with
  | some n => { c with Customer_Number := some (n % 4294967296) }
  | none => c

/-- One row of lines 257-266: `Text` is filled with `""` and the customer
number extracted from it. -/
def extract_row (r : Row) : Except String CRow :=
  match extract_customer_number (r.Text.getD "") with
  | .error e => .error e
  | .ok cn => .ok { toRow := { r with Text := some (r.Text.getD "") }, Customer_Number := cn }

/-- Embeds `compact_data` (processor.py lines 234-277): reject an empty batch
list, concatenate the batches, fill missing texts, extract customer numbers,
apply the fallback of lines 270-271, and cast to uint32. -/
def compact_data (converted : List (List Row)) : Except String (List CRow) :=
  if converted.length = 0 then .error "The input data contains no records!"
  else
    match converted.flatten.mapM extract_row with
    | .error e => .error e
    | .ok rows => .ok (rows.map (fun c => cast_uint32 (apply_fallback c)))

/-! ## `_aggregate_data` (processor.py lines 64-114) -/

/-- The three deduction labels of line 76. -/
inductive Bucket where
  | under30
  | mid30to50
  | over50
deriving DecidableEq

/-- The dense bucket axis materialised by the pivot. -/
def allBuckets : List Bucket := [.under30, .mid30to50, .over50]

/-- Embeds `pd.cut(x, right = True, bins = [0, 30, 50, 999999])` on one value:
the right-closed intervals (0,30], (30,50], (50,999999]; values outside all
three bins (0 itself, negatives, and anything above 999999) get no label. -/
def bucketOf (v : ℚ) : Option Bucket :=
  if 0 < v ∧ v ≤ 30 then some .under30
  else if 30 < v ∧ v ≤ 50 then some .mid30to50
  else if 50 < v ∧ v ≤ 999999 then some .over50
  else none

/-- The pivot grouping key of lines 90-97, with `Customer_Number` already
filled with 0 where absent (line 87). -/
structure Key where
  Company_Code : String
  GL_Account : Nat
  Year : Nat
  Period : Nat
  Customer_Number : Nat
  Currency : String
deriving DecidableEq

/-- Grouping key of a compacted row. -/
def keyOf (c : CRow) : Key :=
  ⟨c.Company_Code, c.GL_Account, c.Year, c.Period, c.Customer_Number.getD 0, c.Currency⟩

/-- A row as the pivot sees it: key, bucket label, and signed amount. Rows
whose absolute amount received no label are dropped by the pivot grouping. -/
abbrev Entry := Key × Bucket × ℚ

/-- The labelled rows entering the pivot: one entry per input row whose
absolute amount falls in a bin. -/
def bucketedEntries (rows : List CRow) : List Entry :=
  rows.filterMap (fun c => (bucketOf |c.LC_Amount|).map (fun b => (keyOf c, b, c.LC_Amount)))

/-- One row of the stacked pivot output (lines 89-113). -/
structure AggRow where
  key : Key
  Deductions : Bucket
  Deductions_Count : Nat
  Deductions_Total : ℚ
deriving DecidableEq

/-- The entries aggregated into one (key, bucket) cell. -/
def entriesFor (ents : List Entry) (k : Key) (b : Bucket) : List Entry :=
  ents.filter (fun e => e.1 = k ∧ e.2.1 = b)

/-- One stacked pivot cell: `Deductions_Count` is a count cast to uint16
(line 111), `Deductions_Total` the sum of signed amounts; empty cells get the
pivot `fill_value` 0. -/
def bucketRow (ents : List Entry) (k : Key) (b : Bucket) : AggRow :=
  ⟨k, b, (entriesFor ents k b).length % 65536, ((entriesFor ents k b).map (fun e => e.2.2)).sum⟩

/-- The three dense bucket rows of one grouping key. -/
def bucketRowsOf (ents : List Entry) (k : Key) : List AggRow :=
  allBuckets.map (bucketRow ents k)

/-- Embeds `_aggregate_data`: every key owning at least one labelled row
appears with all three bucket rows; keys all of whose rows lost their label
do not appear at all. -/
def aggregate_data (rows : List CRow) : List AggRow :=
  ((bucketedEntries rows).map (fun e => e.1)).dedup.flatMap
    (bucketRowsOf (bucketedEntries rows))

/-- Sum of `Deductions_Total` over all output rows of one grouping key. -/
def outTotal (out : List AggRow) (k : Key) : ℚ :=
  ((out.filter (fun a => a.key = k)).map (fun a => a.Deductions_Total)).sum

/-- Sum of `Deductions_Count` over all output rows of one grouping key. -/
def outCount (out : List AggRow) (k : Key) : Nat :=
  ((out.filter (fun a => a.key = k)).map (fun a => a.Deductions_Count)).sum

/-- The input rows mapping to one grouping key. -/
def rowsOfKey (rows : List CRow) (k : Key) : List CRow :=
  rows.filter (fun c => keyOf c = k)

/-! ## Customer master and `assign_customers` (processor.py lines 116-176) -/

/-- One row of the merged customer master produced by `_load_customer_data`:
the outer join of the branch and head-office files on `head_office`, keeping
the columns the resolver consumes; any of them can be null after the outer
join. -/
structure CustRec where
  branch_number : Option Nat
  Customer_Name : Option String
  Company_Code : Option String
  head_office : Option Nat
deriving DecidableEq

/-- Embeds the `.dropna(axis = 0)` of lines 146-150 on the projected columns. -/
def dropnaBranch (cust : List CustRec) : List CustRec :=
  cust.filter (fun c => c.branch_number.isSome && c.Customer_Name.isSome && c.Company_Code.isSome)

/-- Master rows matching one aggregated row in the pass-1 branch-level join
(`Customer_Number = branch_number` and equal `Company_Code`). -/
def branchMatches (cust : List CustRec) (a : AggRow) : List CustRec :=
  (dropnaBranch cust).filter
    (fun c => c.branch_number = some a.key.Customer_Number ∧ c.Company_Code = some a.key.Company_Code)

/-- Accumulator pass of `dedupPairs`: drop any pair already seen. -/
def dedupPairsAux (seen : List (Option Nat × Option String)) :
    List (Option Nat × Option String) → List (Option Nat × Option String)
  | [] => []
  | p :: l => if p ∈ seen then dedupPairsAux seen l else p :: dedupPairsAux (p :: seen) l

/-- Embeds `drop_duplicates()` on the projected `(head_office, Customer_Name)`
pairs: every distinct pair survives once, at its first occurrence. -/
def dedupPairs (l : List (Option Nat × Option String)) :
    List (Option Nat × Option String) :=
  dedupPairsAux [] l

/-- The deduplicated `(head_office, Customer_Name)` table of lines 160-163. -/
def headPairs (cust : List CustRec) : List (Option Nat × Option String) :=
  dedupPairs (cust.map (fun c => (c.head_office, c.Customer_Name)))

/-- Pairs matching one customer number in the pass-2 head-office join. -/
def headMatches (cust : List CustRec) (n : Nat) : List (Option Nat × Option String) :=
  (headPairs cust).filter (fun p => p.1 = some n)

/-- Embeds the pass-1 left merge of lines 144-156: every aggregated row is
kept; a row with no branch match gets a null name, a row with several
matches fans out. -/
def leftJoinBranch (aggr : List AggRow) (cust : List CustRec) : List (AggRow × Option String) :=
  aggr.flatMap (fun a =>
    match branchMatches cust a with
    | [] => [(a, none)]
    | ms => ms.map (fun c => (a, c.Customer_Name)))

/-- Embeds the pass-2 left merge of lines 158-167: pulls the head-office
candidate name next to the pass-1 name. -/
def leftJoinHead (p1 : List (AggRow × Option String)) (cust : List CustRec) :
    List (AggRow × Option String × Option String) :=
  p1.flatMap (fun pr =>
    match headMatches cust pr.1.key.Customer_Number with
    | [] => [(pr.1, pr.2, none)]
    | ms => ms.map (fun q => (pr.1, pr.2, q.2)))

/-- An aggregated row with its resolved customer name. -/
structure ResolvedRow where
  agg : AggRow
  Customer_Name : Option String
deriving DecidableEq

/-- Embeds lines 169-172: where `Customer_Name_x` is null it is overwritten by
`Customer_Name_y`, then the columns are consolidated into `Customer_Name`. -/
def applyNamePolicy (t : AggRow × Option String × Option String) : ResolvedRow :=
  ⟨t.1, if t.2.1.isNone then t.2.2 else t.2.1⟩

/-- Embeds `assign_customers` (lines 116-176), parametrised by the merged
customer master instead of the two CSV paths: empty input raises, the two
left merges resolve names, and the assert of line 174 aborts on any
row-count change. -/
def assign_customers (compacted : List CRow) (cust : List CustRec) :
    Except String (List ResolvedRow) :=
  if compacted.isEmpty then .error "Input data contains no records!"
  else
    let aggregated := aggregate_data compacted
    let renamed := (leftJoinHead (leftJoinBranch aggregated cust) cust).map applyNamePolicy
    if aggregated.length = renamed.length then .ok renamed
    else .error "Input and output data rows not equal!"

/-! ## `generate_excel_report` (report.py lines 45-194), data effect only -/

/-- One row of the processed table as the report consumes it (the
`assign_customers` output flattened to the report column set); its
`Customer_Number` is optional because line 84 writes `pd.NA` into it. -/
structure ProcRow where
  Company_Code : String
  GL_Account : Nat
  Period : Nat
  Year : Nat
  Customer_Number : Option Nat
  Customer_Name : Option String
  Currency : String
  Deductions : Bucket
  Deductions_Count : Nat
  Deductions_Total : ℚ
deriving DecidableEq

/-- Embeds lines 84-85 on one value: a customer number equal to 0 becomes
absent; absent stays absent and other values are untouched. -/
def blankZero (n : Option Nat) : Option Nat :=
  if n = some 0 then none else n

/-- Embeds the caller-visible data effect of `generate_excel_report`
(report.py lines 45-194): empty inputs raise, otherwise both argument tables
are mutated in place by lines 84-85 before anything is written; the returned
pair is the post-call state of the two caller-owned tables (all later steps
operate on fresh column-sliced copies and write only to the workbook). -/
def generate_excel_report (processed : List ProcRow) (exported : List CRow) :
    Except String (List ProcRow × List CRow) :=
  if processed.isEmpty then .error "The processed data contains no records!"
  else if exported.isEmpty then .error "The exported data contains no records!"
  else .ok
    (processed.map (fun r => { r with Customer_Number := blankZero r.Customer_Number }),
     exported.map (fun c => { c with Customer_Number := blankZero c.Customer_Number }))

-- Decidable equality for `Except`, needed to evaluate the embedded fallible
-- steps on concrete inputs.
deriving instance DecidableEq for Except

/-! ## Concrete fixtures used by witnesses and counterexamples -/

/-- A line item with the cheque sentinel offsetting account and no identifier
in its text. -/
def fixtureSentinelRow : Row :=
  ⟨"EUR", "0075", 60040100, 2021, 4, "DZ", 48505240, "S", 20, some "no id here"⟩

/-- A line item whose text carries the identifier 1234567 and whose
offsetting account is 999999. -/
def fixtureExtractedRow : Row :=
  ⟨"EUR", "0075", 60040100, 2021, 4, "DZ", 999999, "S", -25, some "ABC 1234567 note"⟩

/-- A compacted row with local amount exactly 0. -/
def fixtureZeroAmountRow : CRow :=
  ⟨⟨"EUR", "0075", 60040100, 2021, 4, "DZ", 0, "S", 0, some ""⟩, none⟩

/-- A compacted row with local amount 1000000, above the top pivot bin. -/
def fixtureBigAmountRow : CRow :=
  ⟨⟨"EUR", "0075", 60040100, 2021, 4, "DZ", 0, "S", 1000000, some ""⟩, none⟩

/-- A compacted row with customer number 4000001 and amount 25. -/
def fixtureSmallRow : CRow :=
  ⟨⟨"EUR", "0075", 60040100, 2021, 4, "DZ", 0, "S", 25, some "ABC 4000001"⟩, some 4000001⟩

/-- The grouping key of `fixtureSmallRow`. -/
def fixtureKey : Key := ⟨"0075", 60040100, 2021, 4, 4000001, "EUR"⟩

/-- A branch-level master record for customer 4000001. -/
def fixtureBranchRec : CustRec := ⟨some 4000001, some "BRANCH GMBH", some "0075", none⟩

/-- A head-office master record for the same number 4000001 with a different
name. -/
def fixtureHeadRec : CustRec := ⟨none, some "HEAD AG", none, some 4000001⟩

/-- A master carrying both records of number 4000001. -/
def fixtureCust : List CustRec := [fixtureBranchRec, fixtureHeadRec]

/-- The expected resolver output for `[fixtureSmallRow]` against
`fixtureCust`: the branch-level name wins on all three bucket rows. -/
def fixtureResolved : List ResolvedRow :=
  [⟨⟨fixtureKey, .under30, 1, 25⟩, some "BRANCH GMBH"⟩,
   ⟨⟨fixtureKey, .mid30to50, 0, 0⟩, some "BRANCH GMBH"⟩,
   ⟨⟨fixtureKey, .over50, 0, 0⟩, some "BRANCH GMBH"⟩]

/-- The expected resolver output for `[fixtureSmallRow]` against an empty
master: no name is resolved. -/
def fixtureResolvedNone : List ResolvedRow :=
  [⟨⟨fixtureKey, .under30, 1, 25⟩, none⟩,
   ⟨⟨fixtureKey, .mid30to50, 0, 0⟩, none⟩,
   ⟨⟨fixtureKey, .over50, 0, 0⟩, none⟩]

/-- A processed-table row with customer number 0, as the report receives it. -/
def fixtureProcZero : ProcRow :=
  ⟨"0075", 60040100, 4, 2021, some 0, none, "EUR", .under30, 1, 20⟩

/-- An exported-table row with customer number 0. -/
def fixtureExportZero : CRow :=
  ⟨⟨"EUR", "0075", 60040100, 2021, 4, "DZ", 0, "S", 20, some ""⟩, some 0⟩

/-- The post-call state of the two fixture report tables. -/
def fixtureReportOut : List ProcRow × List CRow :=
  ([{ fixtureProcZero with Customer_Number := none }],
   [{ fixtureExportZero with Customer_Number := none }])

/-! # Theorems -/

/-- Helper: the blanking of report.py lines 84-85 never leaves a zero. -/
theorem blankZero_ne_some_zero (n : Option Nat) : blankZero n ≠ some 0 := by
  unfold blankZero
  split
  · simp
  · assumption

/-- C7: compact_data rejects an empty batch list and assign_customers rejects
an empty input table; both raise an empty-input error instead of returning an
empty result. -/
theorem c7_empty_input_rejection :
    compact_data [] = .error "The input data contains no records!" ∧
    ∀ cust : List CustRec, assign_customers [] cust = .error "Input data contains no records!" :=
  ⟨rfl, fun _ => rfl⟩

/-- C1: evaluation at the failing input. With the sentinel offsetting account
48505240 and no identifier in the text, compact_data assigns Customer_Number
48505240 instead of leaving it absent; and the identifier 1234567 extracted
from the second row is overwritten by its offsetting account 999999. The
operator precedence of processor.py line 270 turns the fallback mask into
`Offsetting_Account != 0`. -/
theorem c1_fallback_precedence_failing_input :
    compact_data [[fixtureSentinelRow, fixtureExtractedRow]] =
      .ok [⟨fixtureSentinelRow, some 48505240⟩, ⟨fixtureExtractedRow, some 999999⟩] := by
  decide

/-- C2: evaluation at the failing input. The character class `[1,4]` of the
regex on processor.py line 261 also contains the comma, so the text
"x,999999 a" yields the capture ",999999", whose `np.uint64` conversion
raises, where the claim says only 7-digit tokens led by 1 or 4 are ever
extracted (so this text should yield no identifier); the claimed positive
example itself extracts 1234567. -/
theorem c2_extraction_comma_failing_input :
    find_customer_ids "x,999999 a" = some ",999999".data ∧
    extract_customer_number "x,999999 a" = .error "invalid literal for uint64" ∧
    extract_customer_number "ABC 1234567 note" = .ok (some 1234567) := by
  refine ⟨by decide, by decide, by decide⟩

/-- C5 counterexample: an absolute amount of exactly 0 receives no deduction
bucket at all, contradicting the claim that every v with 0 <= v <= 30 falls
in the bucket "under 30". -/
theorem c5_zero_boundary_counterexample : ¬ bucketOf 0 = some Bucket.under30 := by
  decide

/-- C5 amended: the bucketing is right-closed but bottom-exclusive and capped
by the top bin edge 999999: "under 30" is exactly (0, 30], "30 - 50" exactly
(30, 50], "over 50" exactly (50, 999999]; an absolute amount of 0 or above
999999 falls in no bucket. -/
theorem c5_bucket_boundaries (v : ℚ) :
    (bucketOf v = some Bucket.under30 ↔ 0 < v ∧ v ≤ 30) ∧
    (bucketOf v = some Bucket.mid30to50 ↔ 30 < v ∧ v ≤ 50) ∧
    (bucketOf v = some Bucket.over50 ↔ 50 < v ∧ v ≤ 999999) ∧
    (bucketOf v = none ↔ v ≤ 0 ∨ 999999 < v) := by
  unfold bucketOf
  split_ifs with h1 h2 h3
  · exact ⟨iff_of_true rfl h1,
      iff_of_false (by simp) (by rintro ⟨a, b⟩; linarith [h1.1, h1.2]),
      iff_of_false (by simp) (by rintro ⟨a, b⟩; linarith [h1.1, h1.2]),
      iff_of_false (by simp) (by rintro (a | a) <;> linarith [h1.1, h1.2])⟩
  · exact ⟨iff_of_false (by simp) (by rintro ⟨a, b⟩; exact h1 ⟨a, b⟩),
      iff_of_true rfl h2,
      iff_of_false (by simp) (by rintro ⟨a, b⟩; linarith [h2.1, h2.2]),
      iff_of_false (by simp) (by rintro (a | a) <;> linarith [h2.1, h2.2])⟩
  · exact ⟨iff_of_false (by simp) (by rintro ⟨a, b⟩; exact h1 ⟨a, b⟩),
      iff_of_false (by simp) (by rintro ⟨a, b⟩; exact h2 ⟨a, b⟩),
      iff_of_true rfl h3,
      iff_of_false (by simp) (by rintro (a | a) <;> linarith [h3.1, h3.2])⟩
  · push_neg at h1 h2 h3
    refine ⟨iff_of_false (by simp) ?_, iff_of_false (by simp) ?_, iff_of_false (by simp) ?_,
      iff_of_true rfl ?_⟩
    · rintro ⟨a, b⟩; linarith [h1 a]
    · rintro ⟨a, b⟩; linarith [h2 a]
    · rintro ⟨a, b⟩; linarith [h3 a]
    · rcases le_or_lt v 0 with hv | hv
      · exact Or.inl hv
      · exact Or.inr (h3 (h2 (h1 hv)))

/-- C3 counterexample: a single row with LC_Amount 1000000 lies above the top
pivot bin 999999, is silently dropped by the aggregation, and the bucket
totals of its grouping key sum to 0 instead of 1000000. -/
theorem c3_total_counterexample :
    ¬ outTotal (aggregate_data [fixtureBigAmountRow]) (keyOf fixtureBigAmountRow)
      = ((rowsOfKey [fixtureBigAmountRow] (keyOf fixtureBigAmountRow)).map
          (fun c => c.LC_Amount)).sum := by
  intro h
  have hL : outTotal (aggregate_data [fixtureBigAmountRow]) (keyOf fixtureBigAmountRow) = 0 := by
    decide
  have hR : ((rowsOfKey [fixtureBigAmountRow] (keyOf fixtureBigAmountRow)).map
      (fun c => c.LC_Amount)).sum = 1000000 := by
    simp +decide [rowsOfKey, fixtureBigAmountRow, keyOf]
  rw [hL, hR] at h
  exact absurd h (by decide)

/-- C4 counterexample: a single row with LC_Amount 0 falls in no bucket, its
key does not even appear in the aggregated output, and the bucket counts of
the key sum to 0 instead of the row count 1. -/
theorem c4_count_counterexample :
    ¬ outCount (aggregate_data [fixtureZeroAmountRow]) (keyOf fixtureZeroAmountRow)
      = (rowsOfKey [fixtureZeroAmountRow] (keyOf fixtureZeroAmountRow)).length := by
  decide

/-- Helper: a nonnegative value below the top bin edge that gets no bucket is
exactly 0. -/
theorem bucketOf_none_imp_zero (v : ℚ) (h0 : 0 ≤ v) (h1 : v ≤ 999999)
    (hn : bucketOf v = none) : v = 0 := by
  unfold bucketOf at hn
  split_ifs at hn with a b c
  push_neg at a b c
  rcases le_or_lt v 0 with hv | hv
  · linarith
  · linarith [c (b (a hv))]

/-- Helper: a positive value within the top bin edge always gets a bucket. -/
theorem bucketOf_isSome_of_pos (v : ℚ) (h0 : 0 < v) (h1 : v ≤ 999999) :
    (bucketOf v).isSome = true := by
  unfold bucketOf
  split_ifs with a b c
  · rfl
  · rfl
  · rfl
  · push_neg at a b c
    linarith [c (b (a h0))]

/-- Helper: the three bucket rows of key `k` all carry key `k`. -/
theorem filter_bucketRowsOf_self (ents : List Entry) (k : Key) :
    (bucketRowsOf ents k).filter (fun a => a.key = k) = bucketRowsOf ents k :=
  List.filter_eq_self.mpr (by
    intro a ha
    rcases List.mem_map.mp ha with ⟨b, _, rfl⟩
    simp [bucketRow])

/-- Helper: bucket rows of a different key never carry key `k`. -/
theorem filter_bucketRowsOf_ne (ents : List Entry) (k kx : Key) (h : kx ≠ k) :
    (bucketRowsOf ents kx).filter (fun a => a.key = k) = [] :=
  List.filter_eq_nil_iff.mpr (by
    intro a ha
    rcases List.mem_map.mp ha with ⟨b, _, rfl⟩
    simp [bucketRow, h])

/-- Helper: filtering the stacked pivot by a key keeps exactly that key's
three bucket rows, or nothing when the key never made it into the pivot. -/
theorem filter_flatMap_key (ents : List Entry) (keys : List Key) (k : Key)
    (hnd : keys.Nodup) :
    (keys.flatMap (bucketRowsOf ents)).filter (fun a => a.key = k) =
      if k ∈ keys then bucketRowsOf ents k else [] := by
  induction keys with
  | nil => simp
  | cons kx ks ih =>
    rcases List.nodup_cons.mp hnd with ⟨hkx, hnd2⟩
    rw [List.flatMap_cons, List.filter_append, ih hnd2]
    by_cases h : k = kx
    · subst h
      rw [filter_bucketRowsOf_self, if_neg hkx, List.append_nil,
        if_pos (List.mem_cons_self k ks)]
    · rw [filter_bucketRowsOf_ne _ _ _ (fun he => h he.symm), List.nil_append]
      simp [List.mem_cons, h]

/-- Helper: cons step of a bucket cell, matching head. -/
theorem entriesFor_cons_pos (e : Entry) (es : List Entry) (k : Key) (b : Bucket)
    (h1 : e.1 = k) (h2 : e.2.1 = b) :
    entriesFor (e :: es) k b = e :: entriesFor es k b := by
  unfold entriesFor
  exact List.filter_cons_of_pos (decide_eq_true ⟨h1, h2⟩)

/-- Helper: cons step of a bucket cell, non-matching head. -/
theorem entriesFor_cons_neg (e : Entry) (es : List Entry) (k : Key) (b : Bucket)
    (h : ¬ (e.1 = k ∧ e.2.1 = b)) :
    entriesFor (e :: es) k b = entriesFor es k b := by
  unfold entriesFor
  exact List.filter_cons_of_neg (fun hd => h (of_decide_eq_true hd))

/-- Helper: cons step of the key filter on entries, matching head. -/
theorem filterKey_cons_pos (e : Entry) (es : List Entry) (k : Key) (h : e.1 = k) :
    (e :: es).filter (fun x => x.1 = k) = e :: es.filter (fun x => x.1 = k) :=
  List.filter_cons_of_pos (decide_eq_true h)

/-- Helper: cons step of the key filter on entries, non-matching head. -/
theorem filterKey_cons_neg (e : Entry) (es : List Entry) (k : Key) (h : ¬ e.1 = k) :
    (e :: es).filter (fun x => x.1 = k) = es.filter (fun x => x.1 = k) :=
  List.filter_cons_of_neg (fun hd => h (of_decide_eq_true hd))

/-- Helper: cons step of the key filter on rows, matching head. -/
theorem rowsFilter_cons_pos (c : CRow) (cs : List CRow) (k : Key) (h : keyOf c = k) :
    (c :: cs).filter (fun x => keyOf x = k) = c :: cs.filter (fun x => keyOf x = k) :=
  List.filter_cons_of_pos (decide_eq_true h)

/-- Helper: cons step of the key filter on rows, non-matching head. -/
theorem rowsFilter_cons_neg (c : CRow) (cs : List CRow) (k : Key) (h : ¬ keyOf c = k) :
    (c :: cs).filter (fun x => keyOf x = k) = cs.filter (fun x => keyOf x = k) :=
  List.filter_cons_of_neg (fun hd => h (of_decide_eq_true hd))

/-- Helper: the three bucket cells of a key partition its entries, total side. -/
theorem entriesFor_total_partition (ents : List Entry) (k : Key) :
    ((entriesFor ents k Bucket.under30).map (fun e => e.2.2)).sum
      + ((entriesFor ents k Bucket.mid30to50).map (fun e => e.2.2)).sum
      + ((entriesFor ents k Bucket.over50).map (fun e => e.2.2)).sum
    = ((ents.filter (fun e => e.1 = k)).map (fun e => e.2.2)).sum := by
  induction ents with
  | nil => simp [entriesFor]
  | cons e es ih =>
    by_cases hk : e.1 = k
    · cases hb : e.2.1 with
      | under30 =>
        rw [entriesFor_cons_pos e es k _ hk hb,
          entriesFor_cons_neg e es k Bucket.mid30to50
            (fun hc => absurd (hb.symm.trans hc.2) (by decide)),
          entriesFor_cons_neg e es k Bucket.over50
            (fun hc => absurd (hb.symm.trans hc.2) (by decide)),
          filterKey_cons_pos e es k hk]
        simp only [List.map_cons, List.sum_cons]
        linarith [ih]
      | mid30to50 =>
        rw [entriesFor_cons_neg e es k Bucket.under30
            (fun hc => absurd (hb.symm.trans hc.2) (by decide)),
          entriesFor_cons_pos e es k _ hk hb,
          entriesFor_cons_neg e es k Bucket.over50
            (fun hc => absurd (hb.symm.trans hc.2) (by decide)),
          filterKey_cons_pos e es k hk]
        simp only [List.map_cons, List.sum_cons]
        linarith [ih]
      | over50 =>
        rw [entriesFor_cons_neg e es k Bucket.under30
            (fun hc => absurd (hb.symm.trans hc.2) (by decide)),
          entriesFor_cons_neg e es k Bucket.mid30to50
            (fun hc => absurd (hb.symm.trans hc.2) (by decide)),
          entriesFor_cons_pos e es k _ hk hb,
          filterKey_cons_pos e es k hk]
        simp only [List.map_cons, List.sum_cons]
        linarith [ih]
    · rw [entriesFor_cons_neg e es k Bucket.under30 (fun hc => hk hc.1),
        entriesFor_cons_neg e es k Bucket.mid30to50 (fun hc => hk hc.1),
        entriesFor_cons_neg e es k Bucket.over50 (fun hc => hk hc.1),
        filterKey_cons_neg e es k hk]
      exact ih

/-- Helper: the three bucket cells of a key partition its entries, count side. -/
theorem entriesFor_count_partition (ents : List Entry) (k : Key) :
    (entriesFor ents k Bucket.under30).length
      + (entriesFor ents k Bucket.mid30to50).length
      + (entriesFor ents k Bucket.over50).length
    = (ents.filter (fun e => e.1 = k)).length := by
  induction ents with
  | nil => simp [entriesFor]
  | cons e es ih =>
    by_cases hk : e.1 = k
    · cases hb : e.2.1 with
      | under30 =>
        rw [entriesFor_cons_pos e es k _ hk hb,
          entriesFor_cons_neg e es k Bucket.mid30to50
            (fun hc => absurd (hb.symm.trans hc.2) (by decide)),
          entriesFor_cons_neg e es k Bucket.over50
            (fun hc => absurd (hb.symm.trans hc.2) (by decide)),
          filterKey_cons_pos e es k hk]
        simp only [List.length_cons]
        omega
      | mid30to50 =>
        rw [entriesFor_cons_neg e es k Bucket.under30
            (fun hc => absurd (hb.symm.trans hc.2) (by decide)),
          entriesFor_cons_pos e es k _ hk hb,
          entriesFor_cons_neg e es k Bucket.over50
            (fun hc => absurd (hb.symm.trans hc.2) (by decide)),
          filterKey_cons_pos e es k hk]
        simp only [List.length_cons]
        omega
      | over50 =>
        rw [entriesFor_cons_neg e es k Bucket.under30
            (fun hc => absurd (hb.symm.trans hc.2) (by decide)),
          entriesFor_cons_neg e es k Bucket.mid30to50
            (fun hc => absurd (hb.symm.trans hc.2) (by decide)),
          entriesFor_cons_pos e es k _ hk hb,
          filterKey_cons_pos e es k hk]
        simp only [List.length_cons]
        omega
    · rw [entriesFor_cons_neg e es k Bucket.under30 (fun hc => hk hc.1),
        entriesFor_cons_neg e es k Bucket.mid30to50 (fun hc => hk hc.1),
        entriesFor_cons_neg e es k Bucket.over50 (fun hc => hk hc.1),
        filterKey_cons_neg e es k hk]
      exact ih

/-- Helper: an unlabelled head row contributes no entry. -/
theorem bucketedEntries_cons_none (c : CRow) (cs : List CRow)
    (hb : bucketOf |c.LC_Amount| = none) :
    bucketedEntries (c :: cs) = bucketedEntries cs := by
  unfold bucketedEntries
  rw [List.filterMap_cons, hb]
  rfl

/-- Helper: a labelled head row contributes its entry. -/
theorem bucketedEntries_cons_some (c : CRow) (cs : List CRow) (b : Bucket)
    (hb : bucketOf |c.LC_Amount| = some b) :
    bucketedEntries (c :: cs) = (keyOf c, b, c.LC_Amount) :: bucketedEntries cs := by
  unfold bucketedEntries
  rw [List.filterMap_cons, hb]
  rfl

/-- Helper: under the bin-edge hypothesis, the labelled entries of a key carry
the same signed amounts as the key's input rows (rows with amount 0 are
dropped from the entries but contribute 0 to the sum). -/
theorem entries_total_eq_rows_total (rows : List CRow) (k : Key)
    (h : ∀ c ∈ rows, keyOf c = k → |c.LC_Amount| ≤ 999999) :
    (((bucketedEntries rows).filter (fun e => e.1 = k)).map (fun e => e.2.2)).sum
      = ((rows.filter (fun c => keyOf c = k)).map (fun c => c.LC_Amount)).sum := by
  induction rows with
  | nil => rfl
  | cons c cs ih =>
    have hcs : ∀ x ∈ cs, keyOf x = k → |x.LC_Amount| ≤ 999999 :=
      fun x hx => h x (List.mem_cons_of_mem c hx)
    by_cases hk : keyOf c = k
    · cases hb : bucketOf |c.LC_Amount| with
      | none =>
        have h0 : c.LC_Amount = 0 := abs_eq_zero.mp
          (bucketOf_none_imp_zero _ (abs_nonneg _) (h c (List.mem_cons_self c cs) hk) hb)
        rw [bucketedEntries_cons_none c cs hb, rowsFilter_cons_pos c cs k hk]
        simp only [List.map_cons, List.sum_cons, h0, zero_add]
        exact ih hcs
      | some b =>
        rw [bucketedEntries_cons_some c cs b hb,
          filterKey_cons_pos ((keyOf c, b, c.LC_Amount) : Entry) (bucketedEntries cs) k hk,
          rowsFilter_cons_pos c cs k hk]
        simp only [List.map_cons, List.sum_cons]
        rw [ih hcs]
    · cases hb : bucketOf |c.LC_Amount| with
      | none =>
        rw [bucketedEntries_cons_none c cs hb, rowsFilter_cons_neg c cs k hk]
        exact ih hcs
      | some b =>
        rw [bucketedEntries_cons_some c cs b hb,
          filterKey_cons_neg ((keyOf c, b, c.LC_Amount) : Entry) (bucketedEntries cs) k hk,
          rowsFilter_cons_neg c cs k hk]
        exact ih hcs

/-- Helper: under the positivity and bin-edge hypotheses, the labelled entries
of a key are in bijection with the key's input rows, count side. -/
theorem entries_count_eq_rows_count (rows : List CRow) (k : Key)
    (h : ∀ c ∈ rows, keyOf c = k → 0 < |c.LC_Amount| ∧ |c.LC_Amount| ≤ 999999) :
    ((bucketedEntries rows).filter (fun e => e.1 = k)).length
      = (rows.filter (fun c => keyOf c = k)).length := by
  induction rows with
  | nil => rfl
  | cons c cs ih =>
    have hcs : ∀ x ∈ cs, keyOf x = k → 0 < |x.LC_Amount| ∧ |x.LC_Amount| ≤ 999999 :=
      fun x hx => h x (List.mem_cons_of_mem c hx)
    by_cases hk : keyOf c = k
    · rcases h c (List.mem_cons_self c cs) hk with ⟨hpos, hle⟩
      cases hb : bucketOf |c.LC_Amount| with
      | none =>
        exact absurd (congrArg Option.isSome hb)
          (by rw [bucketOf_isSome_of_pos _ hpos hle]; simp)
      | some b =>
        rw [bucketedEntries_cons_some c cs b hb,
          filterKey_cons_pos ((keyOf c, b, c.LC_Amount) : Entry) (bucketedEntries cs) k hk,
          rowsFilter_cons_pos c cs k hk]
        simp only [List.length_cons]
        rw [ih hcs]
    · cases hb : bucketOf |c.LC_Amount| with
      | none =>
        rw [bucketedEntries_cons_none c cs hb, rowsFilter_cons_neg c cs k hk]
        exact ih hcs
      | some b =>
        rw [bucketedEntries_cons_some c cs b hb,
          filterKey_cons_neg ((keyOf c, b, c.LC_Amount) : Entry) (bucketedEntries cs) k hk,
          rowsFilter_cons_neg c cs k hk]
        exact ih hcs

/-- Helper: a cell never holds more entries than its whole key group. -/
theorem entriesFor_length_le (ents : List Entry) (k : Key) (b : Bucket) :
    (entriesFor ents k b).length ≤ (ents.filter (fun e => e.1 = k)).length := by
  induction ents with
  | nil => simp [entriesFor]
  | cons e es ih =>
    by_cases hk : e.1 = k
    · by_cases hbb : e.2.1 = b
      · rw [entriesFor_cons_pos e es k b hk hbb, filterKey_cons_pos e es k hk]
        simp only [List.length_cons]
        omega
      · rw [entriesFor_cons_neg e es k b (fun hc => hbb hc.2), filterKey_cons_pos e es k hk]
        simp only [List.length_cons]
        omega
    · rw [entriesFor_cons_neg e es k b (fun hc => hk hc.1), filterKey_cons_neg e es k hk]
      exact ih

/-- Helper: a key absent from the pivot key list has no labelled entries. -/
theorem filter_entries_eq_nil_of_not_mem (ents : List Entry) (k : Key)
    (hk : k ∉ (ents.map (fun e => e.1)).dedup) :
    ents.filter (fun e => e.1 = k) = [] := by
  refine List.filter_eq_nil_iff.mpr (fun e he hke => ?_)
  rw [decide_eq_true_eq] at hke
  exact hk (List.mem_dedup.mpr (hke ▸ List.mem_map_of_mem (fun e => e.1) he))

/-- C3 amended: for every grouping key all of whose input rows have absolute
amount at most the top bin edge 999999, the sum of Deductions_Total over the
key's bucket rows equals the sum of the signed LC_Amount of the key's input
rows (rows with amount exactly 0 are dropped from the buckets but contribute
0 to either side); without the bin-edge bound the equality fails. -/
theorem c3_bucket_totals (rows : List CRow) (k : Key)
    (h : ∀ c ∈ rowsOfKey rows k, |c.LC_Amount| ≤ 999999) :
    outTotal (aggregate_data rows) k =
      ((rowsOfKey rows k).map (fun c => c.LC_Amount)).sum := by
  have h2 : ∀ c ∈ rows, keyOf c = k → |c.LC_Amount| ≤ 999999 := by
    intro c hc hk
    exact h c (List.mem_filter.mpr ⟨hc, decide_eq_true hk⟩)
  unfold outTotal aggregate_data rowsOfKey
  rw [filter_flatMap_key _ _ _ (List.nodup_dedup _)]
  by_cases hk : k ∈ ((bucketedEntries rows).map (fun e => e.1)).dedup
  · rw [if_pos hk]
    unfold bucketRowsOf allBuckets bucketRow
    simp only [List.map_cons, List.map_nil, List.sum_cons, List.sum_nil]
    rw [← entries_total_eq_rows_total rows k h2, ← entriesFor_total_partition]
    ring
  · rw [if_neg hk]
    rw [← entries_total_eq_rows_total rows k h2,
      filter_entries_eq_nil_of_not_mem _ _ hk]
    rfl

/-- C3 witness: the amended totals equality applied at the one-row fixture. -/
theorem c3_bucket_totals_witness :
    (∀ c ∈ rowsOfKey [fixtureSmallRow] fixtureKey, |c.LC_Amount| ≤ 999999) ∧
    outTotal (aggregate_data [fixtureSmallRow]) fixtureKey =
      ((rowsOfKey [fixtureSmallRow] fixtureKey).map (fun c => c.LC_Amount)).sum :=
  ⟨by decide, c3_bucket_totals [fixtureSmallRow] fixtureKey (by decide)⟩

/-- C4 amended: for every grouping key all of whose input rows have absolute
amount strictly between 0 and the top bin edge 999999, every row lands in
exactly one bucket and, as long as the key has fewer than 2^16 rows (the
uint16 cast of the count column), the sum of Deductions_Count over the key's
bucket rows equals the number of input rows of the key; rows with amount 0
or above 999999 land in no bucket and break the equality. -/
theorem c4_bucket_counts (rows : List CRow) (k : Key)
    (h : ∀ c ∈ rowsOfKey rows k, 0 < |c.LC_Amount| ∧ |c.LC_Amount| ≤ 999999)
    (hlen : (rowsOfKey rows k).length < 65536) :
    outCount (aggregate_data rows) k = (rowsOfKey rows k).length := by
  have h2 : ∀ c ∈ rows, keyOf c = k → 0 < |c.LC_Amount| ∧ |c.LC_Amount| ≤ 999999 := by
    intro c hc hk
    exact h c (List.mem_filter.mpr ⟨hc, decide_eq_true hk⟩)
  have hcnt := entries_count_eq_rows_count rows k h2
  unfold outCount aggregate_data
  rw [filter_flatMap_key _ _ _ (List.nodup_dedup _)]
  by_cases hk : k ∈ ((bucketedEntries rows).map (fun e => e.1)).dedup
  · rw [if_pos hk]
    have hmod : ∀ b : Bucket,
        (entriesFor (bucketedEntries rows) k b).length % 65536 =
          (entriesFor (bucketedEntries rows) k b).length := by
      intro b
      refine Nat.mod_eq_of_lt (lt_of_le_of_lt (entriesFor_length_le _ _ _) ?_)
      rw [hcnt]
      exact hlen
    unfold bucketRowsOf allBuckets bucketRow
    simp only [List.map_cons, List.map_nil, List.sum_cons, List.sum_nil]
    rw [hmod, hmod, hmod]
    have hpart := entriesFor_count_partition (bucketedEntries rows) k
    unfold rowsOfKey
    omega
  · rw [if_neg hk]
    rw [filter_entries_eq_nil_of_not_mem _ _ hk] at hcnt
    simp only [List.length_nil] at hcnt
    unfold rowsOfKey
    simp only [List.map_nil, List.sum_nil]
    omega

/-- C4 witness: the amended counts equality applied at the one-row fixture. -/
theorem c4_bucket_counts_witness :
    ((∀ c ∈ rowsOfKey [fixtureSmallRow] fixtureKey,
        0 < |c.LC_Amount| ∧ |c.LC_Amount| ≤ 999999) ∧
      (rowsOfKey [fixtureSmallRow] fixtureKey).length < 65536) ∧
    outCount (aggregate_data [fixtureSmallRow]) fixtureKey =
      (rowsOfKey [fixtureSmallRow] fixtureKey).length :=
  ⟨⟨by decide, by decide⟩,
   c4_bucket_counts [fixtureSmallRow] fixtureKey (by decide) (by decide)⟩

/-- C10: whenever generate_excel_report returns, the post-call state of both
caller-owned tables (mutated in place by report.py lines 84-85 before
anything is written) has every customer number equal to 0 replaced by an
absent value, with the row counts and all other fields unchanged and the
remaining customer numbers untouched. -/
theorem c10_report_blanks_zero_customers (p : List ProcRow) (e : List CRow)
    (out : List ProcRow × List CRow) (h : generate_excel_report p e = .ok out) :
    out.1.length = p.length ∧ out.2.length = e.length ∧
    (∀ r ∈ out.1, r.Customer_Number ≠ some 0) ∧
    (∀ c ∈ out.2, c.Customer_Number ≠ some 0) ∧
    out.1.map (fun r => { r with Customer_Number := none }) =
      p.map (fun r => { r with Customer_Number := none }) ∧
    out.2.map (fun c => { c with Customer_Number := none }) =
      e.map (fun c => { c with Customer_Number := none }) ∧
    out.1.map (fun r => r.Customer_Number) = p.map (fun r => blankZero r.Customer_Number) ∧
    out.2.map (fun c => c.Customer_Number) = e.map (fun c => blankZero c.Customer_Number) := by
  unfold generate_excel_report at h
  split at h
  · exact absurd h (by simp)
  · split at h
    · exact absurd h (by simp)
    · injection h with h
      subst h
      refine ⟨by simp, by simp, ?_, ?_, ?_, ?_, ?_, ?_⟩
      · intro r hr
        rcases List.mem_map.mp hr with ⟨r₀, _, rfl⟩
        exact blankZero_ne_some_zero _
      · intro c hc
        rcases List.mem_map.mp hc with ⟨c₀, _, rfl⟩
        exact blankZero_ne_some_zero _
      · simp only [List.map_map]
        rfl
      · simp only [List.map_map]
        rfl
      · simp only [List.map_map]
        rfl
      · simp only [List.map_map]
        rfl

/-- Helper: the dot-removal and comma-to-dot steps never create a minus sign. -/
theorem step1_no_minus (body : List Char) (hb : '-' ∉ body) :
    '-' ∉ replaceChar ',' '.' (removeAllChar '.' body) := by
  intro hmem
  rcases List.mem_map.mp hmem with ⟨c, hc, heq⟩
  have hcb : c ∈ body := (List.mem_filter.mp hc).1
  by_cases h : c = ','
  · rw [h] at heq
    simp at heq
  · rw [if_neg h] at heq
    exact hb (heq ▸ hcb)

/-- Helper: the dot-removal and comma-to-dot steps distribute over a trailing
minus sign. -/
theorem step1_append_minus (body : List Char) :
    replaceChar ',' '.' (removeAllChar '.' (body ++ ['-'])) =
      replaceChar ',' '.' (removeAllChar '.' body) ++ ['-'] := by
  unfold replaceChar removeAllChar
  rw [List.filter_append, List.map_append]
  simp

/-- Helper: on a list without a leading minus sign the signed parser is the
unsigned parser. -/
theorem parseDecimal_no_minus (L : List Char) (h : '-' ∉ L) :
    parseDecimal L = parseDecimalCore L := by
  cases L with
  | nil => rfl
  | cons c cs =>
    have hc : c ≠ '-' := fun he => h (he ▸ List.mem_cons_self c cs)
    rw [parseDecimal.eq_def]
    split
    · rename_i heq
      injection heq with h1 h2
      exact absurd h1 hc
    · rfl

/-- Helper: removing every minus sign from a list whose only minus sign is the
trailing one recovers the minus-free front. -/
theorem removeAllChar_minus_concat (L : List Char) (h : '-' ∉ L) :
    removeAllChar '-' (L ++ ['-']) = L := by
  unfold removeAllChar
  rw [List.filter_append]
  have h1 : List.filter (fun d => decide (d ≠ '-')) L = L :=
    List.filter_eq_self.mpr (fun a ha => decide_eq_true (fun he => h (he ▸ ha)))
  have h2 : List.filter (fun d => decide (d ≠ '-')) ['-'] = [] := by decide
  rw [h1, h2, List.append_nil]

/-- C6: confirmed on SAP-format amounts. On every string in which a minus
sign occurs at most as the final character (the SAP format), `_parse_amounts`
computes exactly the claimed algorithm (remove dots, comma to dot, strip one
trailing minus and negate), and the three claimed examples evaluate as
stated. -/
theorem c6_parse_amounts_spec :
    (∀ body : List Char, '-' ∉ body →
        parse_amounts ⟨body⟩ = parse_amounts_spec ⟨body⟩ ∧
        parse_amounts ⟨body ++ ['-']⟩ = parse_amounts_spec ⟨body ++ ['-']⟩) ∧
    parse_amounts "1.234,56" = some (1234.56 : ℚ) ∧
    parse_amounts "50,00-" = some (-50 : ℚ) ∧
    parse_amounts "0,00" = some (0 : ℚ) := by
  refine ⟨?_, ?_, ?_, ?_⟩
  · intro body hb
    have h1 := step1_no_minus body hb
    constructor
    · have hlast : ¬ (replaceChar ',' '.' (removeAllChar '.' body)).getLast? = some '-' :=
        fun hl => h1 (List.mem_of_getLast?_eq_some hl)
      unfold parse_amounts parse_amounts_spec
      rw [show (⟨body⟩ : String).data = body from rfl]
      rw [if_neg hlast, if_neg hlast]
    · have hdata : (⟨body ++ ['-']⟩ : String).data = body ++ ['-'] := rfl
      unfold parse_amounts parse_amounts_spec
      rw [hdata, step1_append_minus]
      rw [List.getLast?_concat, if_pos rfl, if_pos rfl]
      rw [removeAllChar_minus_concat _ h1, List.dropLast_concat]
      rw [parseDecimal_no_minus _ h1]
      rfl
  · have h : parse_amounts "1.234,56" =
        some ((natOfDigits ['1', '2', '3', '4'] : ℚ) +
          (natOfDigits ['5', '6'] : ℚ) / ((10 : ℚ) ^ (2 : ℕ))) := rfl
    rw [h, show natOfDigits ['1', '2', '3', '4'] = 1234 from rfl,
      show natOfDigits ['5', '6'] = 56 from rfl]
    norm_num
  · have h : parse_amounts "50,00-" =
        some (-((natOfDigits ['5', '0'] : ℚ) +
          (natOfDigits ['0', '0'] : ℚ) / ((10 : ℚ) ^ (2 : ℕ)))) := rfl
    rw [h, show natOfDigits ['5', '0'] = 50 from rfl,
      show natOfDigits ['0', '0'] = 0 from rfl]
    norm_num
  · have h : parse_amounts "0,00" =
        some ((natOfDigits ['0'] : ℚ) +
          (natOfDigits ['0', '0'] : ℚ) / ((10 : ℚ) ^ (2 : ℕ))) := rfl
    rw [h, show natOfDigits ['0'] = 0 from rfl, show natOfDigits ['0', '0'] = 0 from rfl]
    norm_num

/-- C6 witness: the equivalence applied at the concrete minus-free body "50"
and its negated SAP form "50-". -/
theorem c6_parse_amounts_witness :
    ('-' ∉ (['5', '0'] : List Char)) ∧
    (parse_amounts ⟨['5', '0']⟩ = parse_amounts_spec ⟨['5', '0']⟩ ∧
     parse_amounts ⟨['5', '0'] ++ ['-']⟩ = parse_amounts_spec ⟨['5', '0'] ++ ['-']⟩) :=
  ⟨by decide, c6_parse_amounts_spec.1 ['5', '0'] (by decide)⟩

/-- C8: whenever assign_customers returns a table, that table has exactly as
many rows as the aggregated table produced from the input; the two
resolution joins keep every aggregated row, and any row-count change ends in
the assertion error of processor.py line 174 instead of a result. -/
theorem c8_row_count_invariant (compacted : List CRow) (cust : List CustRec)
    (t : List ResolvedRow) (h : assign_customers compacted cust = .ok t) :
    t.length = (aggregate_data compacted).length := by
  simp only [assign_customers] at h
  split at h
  · exact absurd h (by simp)
  · split at h
    · rename_i hlen
      injection h with h
      subst h
      exact hlen.symm
    · exact absurd h (by simp)

/-- C8 witness: the invariant applied at a one-row table against an empty
master: three aggregated bucket rows in, three resolved rows out. -/
theorem c8_row_count_witness :
    assign_customers [fixtureSmallRow] [] = .ok fixtureResolvedNone ∧
    fixtureResolvedNone.length = (aggregate_data [fixtureSmallRow]).length :=
  ⟨by simp +decide [assign_customers, aggregate_data, bucketedEntries, keyOf, fixtureSmallRow,
      bucketOf, entriesFor, bucketRow, bucketRowsOf, allBuckets, leftJoinBranch, leftJoinHead,
      branchMatches, dropnaBranch, headMatches, headPairs, dedupPairs, applyNamePolicy,
      fixtureResolvedNone, fixtureKey, List.dedup_cons_of_not_mem, List.filterMap_cons],
   c8_row_count_invariant [fixtureSmallRow] [] fixtureResolvedNone
     (by simp +decide [assign_customers, aggregate_data, bucketedEntries, keyOf, fixtureSmallRow,
       bucketOf, entriesFor, bucketRow, bucketRowsOf, allBuckets, leftJoinBranch, leftJoinHead,
       branchMatches, dropnaBranch, headMatches, headPairs, dedupPairs, applyNamePolicy,
       fixtureResolvedNone, fixtureKey, List.dedup_cons_of_not_mem, List.filterMap_cons])⟩

/-- Helper: with at most one branch match per row, the pass-1 left join is a
plain lookup of the single candidate name. -/
theorem leftJoinBranch_of_le_one (aggr : List AggRow) (cust : List CustRec)
    (h : ∀ a ∈ aggr, (branchMatches cust a).length ≤ 1) :
    leftJoinBranch aggr cust =
      aggr.map (fun a => (a, (branchMatches cust a).head?.bind (fun c => c.Customer_Name))) := by
  induction aggr with
  | nil => rfl
  | cons a as ih =>
    have ha := h a (List.mem_cons_self a as)
    have has : ∀ b ∈ as, (branchMatches cust b).length ≤ 1 :=
      fun b hb => h b (List.mem_cons_of_mem a hb)
    simp only [leftJoinBranch, List.flatMap_cons] at *
    cases hm : branchMatches cust a with
    | nil => simp [hm, ih has]
    | cons c cs =>
      rw [hm] at ha
      have hcs : cs = [] := by
        simp only [List.length_cons] at ha
        exact List.eq_nil_of_length_eq_zero (by omega)
      subst hcs
      simp [hm, ih has]

/-- Helper: with at most one head-office match per row, the pass-2 left join
is a plain lookup of the single candidate name. -/
theorem leftJoinHead_of_le_one (p1 : List (AggRow × Option String)) (cust : List CustRec)
    (h : ∀ pr ∈ p1, (headMatches cust pr.1.key.Customer_Number).length ≤ 1) :
    leftJoinHead p1 cust =
      p1.map (fun pr => (pr.1, pr.2,
        (headMatches cust pr.1.key.Customer_Number).head?.bind (fun q => q.2))) := by
  induction p1 with
  | nil => rfl
  | cons pr ps ih =>
    have ha := h pr (List.mem_cons_self pr ps)
    have has : ∀ q ∈ ps, (headMatches cust q.1.key.Customer_Number).length ≤ 1 :=
      fun q hq => h q (List.mem_cons_of_mem pr hq)
    simp only [leftJoinHead, List.flatMap_cons] at *
    cases hm : headMatches cust pr.1.key.Customer_Number with
    | nil => simp [hm, ih has]
    | cons q qs =>
      rw [hm] at ha
      have hqs : qs = [] := by
        simp only [List.length_cons] at ha
        exact List.eq_nil_of_length_eq_zero (by omega)
      subst hqs
      simp [hm, ih has]

/-- C9: on any non-empty input whose master gives each aggregated row at most
one branch match and at most one head-office match (the joins are then
functional, which is also the only way the resolver can return at all), the
resolver returns every aggregated row carrying the pass-1 branch-level name
when present, otherwise the pass-2 head-office name when present, otherwise
no name. -/
theorem c9_name_merge_policy (compacted : List CRow) (cust : List CustRec)
    (h0 : compacted ≠ [])
    (h1 : ∀ a ∈ aggregate_data compacted, (branchMatches cust a).length ≤ 1)
    (h2 : ∀ a ∈ aggregate_data compacted, (headMatches cust a.key.Customer_Number).length ≤ 1) :
    assign_customers compacted cust = .ok ((aggregate_data compacted).map (fun a =>
      ⟨a, if ((branchMatches cust a).head?.bind (fun c => c.Customer_Name)).isNone
          then (headMatches cust a.key.Customer_Number).head?.bind (fun q => q.2)
          else (branchMatches cust a).head?.bind (fun c => c.Customer_Name)⟩)) := by
  have hne : compacted.isEmpty = false := by
    cases compacted
    · exact absurd rfl h0
    · rfl
  have h2m : ∀ pr ∈ (aggregate_data compacted).map
      (fun a => (a, (branchMatches cust a).head?.bind (fun c => c.Customer_Name))),
      (headMatches cust pr.1.key.Customer_Number).length ≤ 1 := by
    intro pr hpr
    rcases List.mem_map.mp hpr with ⟨a, ha, rfl⟩
    exact h2 a ha
  simp only [assign_customers, hne, Bool.false_eq_true, if_false]
  rw [leftJoinBranch_of_le_one _ _ h1, leftJoinHead_of_le_one _ _ h2m]
  rw [List.map_map, List.map_map]
  rw [if_pos (by rw [List.length_map])]
  rfl

/-- C9 witness: a customer number carried by both a branch record (name
"BRANCH GMBH", matching company code) and a head-office record (name
"HEAD AG") resolves to the branch-level name on every bucket row. -/
theorem c9_branch_preference_witness :
    assign_customers [fixtureSmallRow] fixtureCust = .ok fixtureResolved ∧
    fixtureResolved.map (fun r => r.Customer_Name) =
      [some "BRANCH GMBH", some "BRANCH GMBH", some "BRANCH GMBH"] := by
  constructor
  · rw [c9_name_merge_policy [fixtureSmallRow] fixtureCust (by decide) (by decide) (by decide)]
    simp +decide [aggregate_data, bucketedEntries, keyOf, fixtureSmallRow, bucketOf, entriesFor,
      bucketRow, bucketRowsOf, allBuckets, branchMatches, dropnaBranch, headMatches, headPairs,
      dedupPairs, fixtureCust, fixtureBranchRec, fixtureHeadRec, fixtureResolved, fixtureKey,
      List.dedup_cons_of_not_mem, List.filterMap_cons]
  · rfl

/-- C10 witness: the theorem applied at one-row tables each holding a zero
customer number. -/
theorem c10_report_blanks_witness :
    generate_excel_report [fixtureProcZero] [fixtureExportZero] = .ok fixtureReportOut ∧
    fixtureReportOut.1.length = [fixtureProcZero].length :=
  ⟨by decide,
   (c10_report_blanks_zero_customers [fixtureProcZero] [fixtureExportZero] fixtureReportOut
     (by decide)).1⟩
